import Mathlib

/-!
T-Display Dharma Counter: header embedding and properties

A shallow embedding of `TDisplayDharmaCounter.h`, the header that declares the
configuration constants, the startup values of the global state and the default
tables of the firmware, followed by the properties proved about them.

Conventions: `byte`, `uint8_t` and `unsigned long` values are natural numbers
(bounded by `BYTE_MAX`, resp. `ULONG_MAX`), `int` values are integers, `bool`
is `Bool` and `String` is `String`.  An array is a list in declaration order.
The field `show` of `tally_counter` is spelled `show_` because `show` is a
reserved word.
-/

namespace DharmaCounter

/-! ## Display size (header lines 8-9) -/

def TFT_H : Nat := 135
def TFT_W : Nat := 240

/-! ## Button pins (header lines 14-18) -/

def BUTTON_INC_PIN : Nat := 2
def BUTTON_DEC_PIN : Nat := 27
def BUTTON_PRS_PIN : Nat := 12
def BUTTON_NXT_PIN : Nat := 0
def BUTTON_PRV_PIN : Nat := 35

def LONG_PRESS_TIME : Nat := 700

/-! ## Power saving regulation (header lines 35-48) -/

/-- Largest value of a `byte`. -/
def BYTE_MAX : Nat := 255

/-- Largest value of the 32-bit `unsigned long` of the ESP32 target. -/
def ULONG_MAX : Nat := 4294967295

def BRIGHTNESS_MAX : Nat := 255
def BRIGHTNESS_MIN : Nat := 1
def pwmFreq : Int := 10000
def pwmResolution : Int := 8
def pwmLedChannelTFT : Int := 0
def brightness : Nat := BRIGHTNESS_MAX
def dim_brightness : Nat := 24
def power_save : Bool := true
def power_save_disable : Bool := false
def dim_time : Nat := 20000
def sleep_time : Nat := 20000
def pwr_last_time : Nat := 0
def BUTTON_PIN_BITMASK : Nat := 0x000000004
def bootCount : Int := 0

/-! ## Counters (header lines 52-83) -/

def MODES : Nat := 14
def PROSTRATIONS : Nat := 3
def mode : Nat := 0
def last_mode : Nat := mode
def all_hidden : Bool := false

/-- Tally counter type. -/
structure tally_counter where
  title : String
  value : Nat
  max_value : Nat
  show_ : Bool
  deriving DecidableEq

/-- The initial values of `counter`, used to create the initial configuration files. -/
def counter : List tally_counter := [
  ⟨"• Mode 7 •", 0, 7, true⟩,
  ⟨"• Mode 21 •", 0, 21, true⟩,
  ⟨"• Mode 108 •", 0, 108, true⟩,
  ⟨"• Prostrations •", 0, 999999, false⟩,
  ⟨"Tally counter 1", 0, 999999, true⟩,
  ⟨"Tally counter 2", 0, 999999, true⟩,
  ⟨"Tally counter 3", 0, 999999, true⟩,
  ⟨"Tally counter 4", 0, 999999, false⟩,
  ⟨"Tally counter 5", 0, 999999, false⟩,
  ⟨"Tally counter 6", 0, 999999, false⟩,
  ⟨"Tally counter 7", 0, 999999, false⟩,
  ⟨"Tally counter 8", 0, 999999, false⟩,
  ⟨"Tally counter 9", 0, 999999, false⟩,
  ⟨"Tally counter 10", 0, 999999, false⟩]

def counter_old : Nat := 0

/-! ## Beads coordinates for mode 108 (header line 86) -/

def beadXY : List (Nat × Nat) := [
  (200, 60), (199, 68), (200, 76), (201, 84), (209, 83), (217, 81), (215, 73), (216, 65), (217, 57),
  (216, 49), (217, 41), (216, 33), (217, 25), (215, 17), (216, 9), (215, 1), (223, 2), (231, 1),
  (232, 9), (233, 17), (232, 25), (233, 33), (232, 41), (233, 49), (232, 57), (233, 65), (232, 73),
  (233, 81), (232, 89), (233, 97), (225, 98), (217, 97), (209, 98), (201, 97), (193, 98), (185, 97),
  (177, 98), (169, 97), (161, 98), (153, 97), (145, 98), (137, 97), (129, 98), (121, 97), (113, 98),
  (105, 97), (97, 98), (89, 97), (81, 98), (73, 97), (65, 98), (57, 97), (49, 98), (41, 97),
  (33, 98), (25, 97), (23, 89), (21, 81), (13, 81), (11, 89), (9, 97), (1, 98), (0, 90),
  (1, 82), (0, 74), (1, 66), (0, 58), (1, 50), (0, 42), (1, 34), (0, 26), (1, 18),
  (0, 10), (1, 2), (9, 1), (10, 9), (11, 17), (19, 18), (27, 17), (26, 9), (25, 1),
  (33, 0), (41, 1), (49, 0), (57, 1), (65, 0), (73, 1), (81, 0), (89, 1), (97, 0),
  (105, 1), (113, 0), (121, 1), (129, 0), (137, 1), (145, 0), (153, 1), (161, 0), (169, 1),
  (177, 0), (185, 1), (193, 0), (201, 1), (200, 9), (201, 17), (200, 25), (201, 33), (200, 41)]

/-! ## Prostrations counting (header lines 116-124) -/

def prst_low_time : Int := 300
def prst_sup_time : Int := 500
def prst_distance : Int := 700
def last_msr_time : Nat := 0
def current_time : Nat := 0
def isLow : Bool := false
def isEnd : Bool := true
def isStart : Bool := false

/-! ## Web server (header line 171) -/

def isedited : List Bool :=
  [false, false, false, false, false, false, false, false, false, false, false, false, false, false]

/-! ## Counter Store (spec §4.3)

The header declares the `tally_counter` record and its `unsigned long` fields;
the routines that mutate `value` are in the firmware sketch, so they are
modelled here from the specification, over the 32-bit wrap-around arithmetic
of the field. -/

/-- Modelled from the spec: the `Increment` and `Decrement` events that the
Mode Engine routes to the Counter Store (§4.4); the sketch that produces them
is not part of the header. -/
inductive CounterEvent where
  | Increment
  | Decrement
  deriving DecidableEq

/-- Modelled from the spec: the `Overflow` outcome of the error taxonomy (§7),
signalled by the Counter Store instead of wrapping. -/
inductive Notification where
  | Overflow
  deriving DecidableEq

/-- Modelled from the spec: `increment(slot)` of the Counter Store (§4.3), whose
code is in the sketch.  It "must not wrap a fixed-width integer": at the
representable maximum the value is clamped and `Overflow` is signalled,
otherwise the `unsigned long` addition `value + 1` is performed. -/
def increment (c : tally_counter) : tally_counter × List Notification :=
  if c.value = ULONG_MAX then (c, [Notification.Overflow])
  else ({ c with value := (c.value + 1) % (ULONG_MAX + 1) }, [])

/-- Modelled from the spec: `decrement(slot)` of the Counter Store (§4.3), whose
code is in the sketch.  It "floors at 0; decrementing at 0 is a no-op, not an
error"; otherwise the `unsigned long` subtraction `value - 1` is performed
(adding `ULONG_MAX` modulo `ULONG_MAX + 1`). -/
def decrement (c : tally_counter) : tally_counter × List Notification :=
  if c.value = 0 then (c, [])
  else ({ c with value := (c.value + ULONG_MAX) % (ULONG_MAX + 1) }, [])

/-- Modelled from the spec: the dispatch of one counting event to the Counter
Store (§4.4, `Increment` and `Decrement` transitions). -/
def apply_event (c : tally_counter) : CounterEvent → tally_counter × List Notification
  | CounterEvent.Increment => increment c
  | CounterEvent.Decrement => decrement c

/-- Modelled from the spec: a finite sequence of counting events applied to one
slot in arrival order (§5), collecting the notifications of every event. -/
def apply_events (c : tally_counter) : List CounterEvent → tally_counter × List Notification
  | [] => (c, [])
  | e :: es =>
    ((apply_events (apply_event c e).1 es).1,
      (apply_event c e).2 ++ (apply_events (apply_event c e).1 es).2)

/-- Modelled from the spec: the count as §8 words it, on unbounded integers: an
`Increment` adds one but clamps at the representable maximum, a `Decrement`
subtracts one but never goes below zero.  Used only to compare `apply_events`
with. -/
def saturating_step (v : Int) : CounterEvent → Int
  | CounterEvent.Increment => min (v + 1) (ULONG_MAX : Int)
  | CounterEvent.Decrement => max (v - 1) 0

/-! ## Mode navigation (spec §3 `ActiveMode`, §4.4)

The header declares `mode`, `last_mode`, `all_hidden` and the `counter` table;
the next/previous handlers are in the firmware sketch, so they are modelled
here from the specification. -/

/-- Modelled from the spec: the `show` flag of slot `i` of a counter table
(`visible` in §3); an index outside the table reads as hidden. -/
def showAt (tbl : List tally_counter) (i : Nat) : Bool :=
  match tbl[i]? with
  | some c => c.show_
  | none => false

/-- Modelled from the spec: the condition "all slots are hidden" of §3 that the
flag `all_hidden` of the header records for the loaded table. -/
def all_hidden_of (tbl : List tally_counter) : Bool :=
  tbl.all (fun c => !c.show_)

/-- Modelled from the spec: the navigation loop of §3 and §4.4, whose code is in
the sketch.  The index moves one slot at a time by `step` and stops at the first
slot that is shown, or at once when all slots are hidden ("fallback: show
all").  The loop counter `fuel` bounds the search by the size of the table. -/
def seek_mode (tbl : List tally_counter) (hidden : Bool) (step : Nat → Nat) : Nat → Nat → Nat
  | 0, m => m
  | fuel + 1, m =>
    if showAt tbl (step m) || hidden then step m else seek_mode tbl hidden step fuel (step m)

/-- Modelled from the spec: one slot forward, wrapping from the last slot to
slot 0 (§3 "wrapping on next/previous navigation"). -/
def step_next (m : Nat) : Nat := (m + 1) % MODES

/-- Modelled from the spec: one slot backward, wrapping from slot 0 to the last
slot (§3 "wrapping on next/previous navigation"). -/
def step_previous (m : Nat) : Nat := if m = 0 then MODES - 1 else m - 1

/-- Modelled from the spec: the `NextMode` transition of the Mode Engine (§4.4),
whose code is in the sketch. -/
def next_mode (tbl : List tally_counter) (m : Nat) : Nat :=
  seek_mode tbl (all_hidden_of tbl) step_next MODES m

/-- Modelled from the spec: the `PreviousMode` transition of the Mode Engine
(§4.4), whose code is in the sketch. -/
def previous_mode (tbl : List tally_counter) (m : Nat) : Nat :=
  seek_mode tbl (all_hidden_of tbl) step_previous MODES m

/-! ## Power Manager (spec §4.5)

The header declares the power-saving configuration (`power_save`,
`power_save_disable`, `dim_time`, `sleep_time`) and the activity timestamp
`pwr_last_time`; the routine that polls them is in the firmware sketch, so it is
modelled here from the specification. -/

/-- Modelled from the spec: the `PowerState` of §3, one of `Active`, `Dimmed`,
`Sleeping`; the header has no such type. -/
inductive PowerState where
  | Active
  | Dimmed
  | Sleeping
  deriving DecidableEq

/-- Modelled from the spec: one poll of the Power Manager (§4.5) at clock value
`now`, whose code is in the sketch.  With power saving on and not disabled, the
state becomes `Dimmed` once `now - last_activity >= dim_time` and `Sleeping`
once `sleep_time` has additionally elapsed; otherwise the state is kept.
Holding the disable flag, or switching power saving off, suppresses both
transitions. -/
def power_tick (save disable : Bool) (dim sleep last_activity : Nat)
    (s : PowerState) (now : Nat) : PowerState :=
  if save && !disable then
    if dim + sleep ≤ now - last_activity then PowerState.Sleeping
    else if dim ≤ now - last_activity then PowerState.Dimmed
    else s
  else s

/-- Modelled from the spec: the control loop of §5 polling the Power Manager at
the successive clock values `ts` while no activity occurs, from state `s`. -/
def power_polls (save disable : Bool) (dim sleep last_activity : Nat)
    (s : PowerState) (ts : List Nat) : PowerState :=
  ts.foldl (power_tick save disable dim sleep last_activity) s

/-! ## Lemmas on the Counter Store -/

theorem apply_event_saturates (c : tally_counter) (e : CounterEvent) (h : c.value ≤ ULONG_MAX) :
    (apply_event c e).1.value ≤ ULONG_MAX ∧
      (((apply_event c e).1.value : Nat) : Int) = saturating_step (c.value : Int) e := by
  cases e
  · simp only [apply_event, increment, saturating_step, ULONG_MAX] at *
    split
    · rename_i h1; simp [h1]
    · simp only []; omega
  · simp only [apply_event, decrement, saturating_step, ULONG_MAX] at *
    split
    · rename_i h1; simp [h1]
    · simp only []; omega

theorem apply_events_saturates (es : List CounterEvent) :
    ∀ (c : tally_counter), c.value ≤ ULONG_MAX →
      (apply_events c es).1.value ≤ ULONG_MAX ∧
        (((apply_events c es).1.value : Nat) : Int) = es.foldl saturating_step (c.value : Int) := by
  induction es with
  | nil => intro c h; exact ⟨h, rfl⟩
  | cons e es ih =>
    intro c h
    have h1 := apply_event_saturates c e h
    have h2 := ih (apply_event c e).1 h1.1
    simp only [apply_events, List.foldl_cons]
    rw [← h1.2]
    exact h2

/-! ## Lemmas on mode navigation -/

theorem seek_mode_hidden (tbl : List tally_counter) (step : Nat → Nat) (fuel m : Nat) :
    seek_mode tbl true step (fuel + 1) m = step m := by
  simp [seek_mode]

theorem seek_mode_first (tbl : List tally_counter) (step : Nat → Nat) :
    ∀ (fuel k m : Nat), k < fuel → showAt tbl (step^[k + 1] m) = true →
      (∀ j, j < k → showAt tbl (step^[j + 1] m) = false) →
      seek_mode tbl false step fuel m = step^[k + 1] m := by
  intro fuel
  induction fuel with
  | zero => intro k m hk; omega
  | succ fuel ih =>
    intro k m hk hshow hmin
    cases k with
    | zero =>
      have h0 : showAt tbl (step m) = true := by simpa using hshow
      simp [seek_mode, h0]
    | succ k =>
      have h0 : showAt tbl (step m) = false := by simpa using hmin 0 (by omega)
      have h1 := ih k (step m) (by omega) (by simpa using hshow)
        (fun j hj => by simpa using hmin (j + 1) (by omega))
      simp only [seek_mode, h0, Bool.or_false, Bool.false_eq_true, if_false]
      simpa using h1

theorem seek_mode_nearest (tbl : List tally_counter) (step : Nat → Nat) (fuel m : Nat)
    (hex : ∃ k, k < fuel ∧ showAt tbl (step^[k + 1] m) = true) :
    ∃ k, k < fuel ∧ seek_mode tbl false step fuel m = step^[k + 1] m ∧
      showAt tbl (step^[k + 1] m) = true ∧ ∀ j, j < k → showAt tbl (step^[j + 1] m) = false := by
  classical
  have hex2 : ∃ k, showAt tbl (step^[k + 1] m) = true := by
    obtain ⟨k, _, hk⟩ := hex
    exact ⟨k, hk⟩
  obtain ⟨k0, hk0, hs0⟩ := hex
  have hle : Nat.find hex2 ≤ k0 := Nat.find_min' hex2 hs0
  have hmin : ∀ j, j < Nat.find hex2 → showAt tbl (step^[j + 1] m) = false := by
    intro j hj
    have := Nat.find_min hex2 hj
    simpa using this
  exact ⟨Nat.find hex2, by omega,
    seek_mode_first tbl step fuel _ m (by omega) (Nat.find_spec hex2) hmin,
    Nat.find_spec hex2, hmin⟩

theorem step_next_iterate : ∀ (k m : Nat), step_next^[k + 1] m = (m + k + 1) % MODES := by
  intro k
  induction k with
  | zero => intro m; simp [step_next]
  | succ k ih =>
    intro m
    rw [Function.iterate_succ_apply, ih]
    simp only [step_next, MODES]
    omega

theorem step_previous_eq (m : Nat) (hm : m < MODES) :
    step_previous m = (m + (MODES - 1)) % MODES := by
  simp only [step_previous, MODES] at *
  split <;> omega

theorem step_previous_iterate : ∀ (k m : Nat), m < MODES →
    step_previous^[k] m = (m + (MODES - 1) * k) % MODES := by
  intro k
  induction k with
  | zero => intro m hm; simp [Nat.mod_eq_of_lt hm]
  | succ k ih =>
    intro m hm
    have h1 := step_previous_eq m hm
    have h2 : step_previous m < MODES := by
      rw [h1]; exact Nat.mod_lt _ (by decide)
    rw [Function.iterate_succ_apply, ih _ h2, h1]
    simp only [ MODES] at *
    omega

theorem exists_shown_of_not_all_hidden (tbl : List tally_counter)
    (h : all_hidden_of tbl = false) : ∃ i, i < tbl.length ∧ showAt tbl i = true := by
  simp only [all_hidden_of, List.all_eq_false] at h
  obtain ⟨c, hc, hs⟩ := h
  obtain ⟨n, hn, hget⟩ := List.getElem_of_mem hc
  refine ⟨n, hn, ?_⟩
  have : tbl[n]? = some c := by rw [List.getElem?_eq_getElem hn, hget]
  simp only [showAt, this]
  simpa using hs

theorem next_mode_nearest (tbl : List tally_counter) (m : Nat) (hlen : tbl.length = MODES)
    (hm : m < MODES) (hvis : all_hidden_of tbl = false) :
    ∃ k, k < MODES ∧ next_mode tbl m = (m + k + 1) % MODES ∧
      showAt tbl (next_mode tbl m) = true ∧
      ∀ j, j < k → showAt tbl ((m + j + 1) % MODES) = false := by
  obtain ⟨i, hi, hs⟩ := exists_shown_of_not_all_hidden tbl hvis
  rw [hlen] at hi
  have hex : ∃ k, k < MODES ∧ showAt tbl (step_next^[k + 1] m) = true := by
    refine ⟨(i + 13 - m) % 14, ?_, ?_⟩
    · simp only [ MODES]; omega
    · rw [step_next_iterate]
      have : (m + (i + 13 - m) % 14 + 1) % MODES = i := by
        simp only [ MODES] at *; omega
      rw [this]; exact hs
  obtain ⟨k, hk, hseek, hshow, hmin⟩ := seek_mode_nearest tbl step_next MODES m hex
  have hnext : next_mode tbl m = (m + k + 1) % MODES := by
    rw [next_mode, hvis, hseek, step_next_iterate]
  refine ⟨k, hk, hnext, ?_, ?_⟩
  · rw [hnext, ← step_next_iterate]; exact hshow
  · intro j hj
    rw [← step_next_iterate]; exact hmin j hj

theorem previous_mode_nearest (tbl : List tally_counter) (m : Nat) (hlen : tbl.length = MODES)
    (hm : m < MODES) (hvis : all_hidden_of tbl = false) :
    ∃ k, k < MODES ∧ previous_mode tbl m = (m + MODES - (k + 1)) % MODES ∧
      showAt tbl (previous_mode tbl m) = true ∧
      ∀ j, j < k → showAt tbl ((m + MODES - (j + 1)) % MODES) = false := by
  obtain ⟨i, hi, hs⟩ := exists_shown_of_not_all_hidden tbl hvis
  rw [hlen] at hi
  have hit : ∀ j, j < MODES → step_previous^[j + 1] m = (m + MODES - (j + 1)) % MODES := by
    intro j hj
    rw [step_previous_iterate (j + 1) m hm]
    simp only [ MODES] at *
    omega
  have hex : ∃ k, k < MODES ∧ showAt tbl (step_previous^[k + 1] m) = true := by
    have hk : (m + 27 - i) % 14 < MODES := by simp only [ MODES]; omega
    refine ⟨(m + 27 - i) % 14, hk, ?_⟩
    rw [hit _ hk]
    have : (m + MODES - ((m + 27 - i) % 14 + 1)) % MODES = i := by
      simp only [ MODES] at *; omega
    rw [this]; exact hs
  obtain ⟨k, hk, hseek, hshow, hmin⟩ := seek_mode_nearest tbl step_previous MODES m hex
  have hprev : previous_mode tbl m = (m + MODES - (k + 1)) % MODES := by
    rw [previous_mode, hvis, hseek, hit k hk]
  refine ⟨k, hk, hprev, ?_, ?_⟩
  · rw [hprev, ← hit k hk]; exact hshow
  · intro j hj
    rw [← hit j (by omega)]; exact hmin j hj

theorem next_mode_all_hidden (tbl : List tally_counter) (hhid : all_hidden_of tbl = true) :
    next_mode tbl = step_next := by
  funext m
  rw [next_mode, hhid]
  exact seek_mode_hidden tbl step_next 13 m

theorem previous_mode_all_hidden (tbl : List tally_counter) (hhid : all_hidden_of tbl = true) :
    previous_mode tbl = step_previous := by
  funext m
  rw [previous_mode, hhid]
  exact seek_mode_hidden tbl step_previous 13 m

theorem step_next_cycle (m k : Nat) (hm : m < MODES) : step_next^[k] m = (m + k) % MODES := by
  cases k with
  | zero => simp [Nat.mod_eq_of_lt hm]
  | succ k => rw [step_next_iterate]; rfl

/-! ## Lemmas on the Power Manager -/

theorem power_polls_stay_active (save disable : Bool) (dim sleep last_activity : Nat) :
    ∀ (ts : List Nat), (∀ t ∈ ts, t - last_activity < dim) →
      power_polls save disable dim sleep last_activity PowerState.Active ts
        = PowerState.Active := by
  intro ts
  induction ts with
  | nil => intro _; rfl
  | cons t ts ih =>
    intro h
    have ht : t - last_activity < dim := h t (List.mem_cons_self t ts)
    have h1 : power_tick save disable dim sleep last_activity PowerState.Active t
        = PowerState.Active := by
      unfold power_tick
      split
      · rw [if_neg (by omega), if_neg (by omega)]
      · rfl
    have h2 := ih (fun u hu => h u (List.mem_cons_of_mem t hu))
    simp only [power_polls, List.foldl_cons] at h2 ⊢
    rw [h1]
    exact h2

theorem power_polls_snoc (save disable : Bool) (dim sleep last_activity : Nat)
    (s : PowerState) (ts : List Nat) (now : Nat) :
    power_polls save disable dim sleep last_activity s (ts ++ [now])
      = power_tick save disable dim sleep last_activity
          (power_polls save disable dim sleep last_activity s ts) now := by
  simp [power_polls, List.foldl_append]

/-! ## The claims -/

/-- C1: for every slot holding an `unsigned long` value and every finite sequence
of `Increment` and `Decrement` events applied to it, the value stays within
`0 .. ULONG_MAX` and equals the count kept on unbounded integers with clamping
at both ends, so it neither goes negative nor wraps; a decrement at 0 leaves the
slot unchanged without any signal, and an increment at `ULONG_MAX` leaves the
value there and signals `Overflow` exactly once. -/
theorem C1_value_never_negative_never_wraps (c : tally_counter) (es : List CounterEvent)
    (h : c.value ≤ ULONG_MAX) :
    (apply_events c es).1.value ≤ ULONG_MAX ∧
    (((apply_events c es).1.value : Nat) : Int) = es.foldl saturating_step (c.value : Int) ∧
    decrement { c with value := 0 } = ({ c with value := 0 }, []) ∧
    increment { c with value := ULONG_MAX } =
      ({ c with value := ULONG_MAX }, [Notification.Overflow]) := by
  refine ⟨(apply_events_saturates es c h).1, (apply_events_saturates es c h).2, ?_, ?_⟩
  · simp [decrement]
  · simp [increment]

/-- Witness of C1: a slot one below the maximum receives two increments, the
second of which overflows, and then a decrement. -/
theorem C1_value_never_negative_never_wraps_witness :
    (4294967294 ≤ ULONG_MAX) ∧
    (apply_events ⟨"Tally counter 1", 4294967294, 999999, true⟩
        [CounterEvent.Increment, CounterEvent.Increment, CounterEvent.Decrement]).1.value
      = 4294967294 ∧
    (apply_events ⟨"Tally counter 1", 4294967294, 999999, true⟩
        [CounterEvent.Increment, CounterEvent.Increment, CounterEvent.Decrement]).2
      = [Notification.Overflow] ∧
    (apply_events ⟨"Tally counter 1", 4294967294, 999999, true⟩
        [CounterEvent.Increment, CounterEvent.Increment, CounterEvent.Decrement]).1.value
      ≤ ULONG_MAX :=
  ⟨by decide, by decide, by decide,
    (C1_value_never_negative_never_wraps ⟨"Tally counter 1", 4294967294, 999999, true⟩
      [CounterEvent.Increment, CounterEvent.Increment, CounterEvent.Decrement] (by decide)).1⟩

/-- C2: over a counter table of `MODES` slots and from any valid mode index,
when some slot is shown both next and previous navigation land on a shown slot,
namely the nearest one in their direction with wrap-around (every slot passed
over is hidden); when every slot is hidden they move by exactly one slot with
wrap-around, so that repeated navigation cycles through all `MODES` slots; and
on the default table repeated `NextMode` from mode 0 visits 1, 2, 4, 5, 6 and
then 0 again. -/
theorem C2_navigation_lands_on_shown_slot (tbl : List tally_counter) (m : Nat)
    (hlen : tbl.length = MODES) (hm : m < MODES) :
    (all_hidden_of tbl = false →
      (∃ k, k < MODES ∧ next_mode tbl m = (m + k + 1) % MODES ∧
        showAt tbl (next_mode tbl m) = true ∧
        ∀ j, j < k → showAt tbl ((m + j + 1) % MODES) = false) ∧
      (∃ k, k < MODES ∧ previous_mode tbl m = (m + MODES - (k + 1)) % MODES ∧
        showAt tbl (previous_mode tbl m) = true ∧
        ∀ j, j < k → showAt tbl ((m + MODES - (j + 1)) % MODES) = false)) ∧
    (all_hidden_of tbl = true →
      next_mode tbl m = (m + 1) % MODES ∧
      previous_mode tbl m = (m + MODES - 1) % MODES ∧
      (∀ k, (next_mode tbl)^[k] m = (m + k) % MODES) ∧
      (∀ k, (previous_mode tbl)^[k] m = (m + (MODES - 1) * k) % MODES)) ∧
    next_mode tbl m < MODES ∧ previous_mode tbl m < MODES ∧
    (List.range 6).map (fun k => (next_mode counter)^[k + 1] mode) = [1, 2, 4, 5, 6, 0] := by
  have hpos : 0 < MODES := by decide
  have hprev1 : step_previous m = (m + MODES - 1) % MODES := by
    rw [step_previous_eq m hm]
    simp only [ MODES]
    omega
  refine ⟨fun hvis => ⟨next_mode_nearest tbl m hlen hm hvis,
      previous_mode_nearest tbl m hlen hm hvis⟩, ?_, ?_, ?_, by decide⟩
  · intro hhid
    rw [next_mode_all_hidden tbl hhid, previous_mode_all_hidden tbl hhid]
    exact ⟨rfl, hprev1, fun k => step_next_cycle m k hm,
      fun k => step_previous_iterate k m hm⟩
  · cases hh : all_hidden_of tbl with
    | true =>
      rw [next_mode_all_hidden tbl hh]
      exact Nat.mod_lt _ hpos
    | false =>
      obtain ⟨k, _, hk, _⟩ := next_mode_nearest tbl m hlen hm hh
      rw [hk]
      exact Nat.mod_lt _ hpos
  · cases hh : all_hidden_of tbl with
    | true =>
      rw [previous_mode_all_hidden tbl hh, hprev1]
      exact Nat.mod_lt _ hpos
    | false =>
      obtain ⟨k, _, hk, _⟩ := previous_mode_nearest tbl m hlen hm hh
      rw [hk]
      exact Nat.mod_lt _ hpos

/-- Witness of C2: the default table at the startup mode, where `NextMode`
skips nothing and `PreviousMode` wraps over the seven hidden slots 13..7. -/
theorem C2_navigation_lands_on_shown_slot_witness :
    counter.length = MODES ∧ mode < MODES ∧ all_hidden_of counter = false ∧
    next_mode counter mode = 1 ∧ previous_mode counter mode = 6 ∧
    next_mode counter mode < MODES ∧ previous_mode counter mode < MODES :=
  ⟨by decide, by decide, by decide, by decide, by decide,
    (C2_navigation_lands_on_shown_slot counter mode (by decide) (by decide)).2.2.1,
    (C2_navigation_lands_on_shown_slot counter mode (by decide) (by decide)).2.2.2.1⟩

/-- C3: the startup state of the header satisfies the active-mode invariant and
is the start of the scenario: `mode` is 0, `last_mode` equals `mode`, 0 is a
valid slot index, slot `mode` of the default table is shown with value 0 and
goal 7, and `all_hidden` is false, which is what the default table gives, since
it has a shown slot. -/
theorem C3_startup_state_valid :
    mode = 0 ∧ last_mode = mode ∧ 0 ≤ mode ∧ mode < MODES ∧
    (∃ c, counter[mode]? = some c ∧ c.show_ = true ∧ c.value = 0 ∧ c.max_value = 7) ∧
    all_hidden = false ∧ all_hidden = all_hidden_of counter ∧
    (∃ c ∈ counter, c.show_ = true) := by
  decide

/-- C4: there are exactly 14 counter slots: `MODES` is 14, the default `counter`
table and the `isedited` table both list `MODES` entries, every `isedited` entry
is false at startup, and `PROSTRATIONS` is 3, a valid index whose default title
is "• Prostrations •". -/
theorem C4_fourteen_slots :
    MODES = 14 ∧ counter.length = MODES ∧ isedited.length = MODES ∧
    (∀ b ∈ isedited, b = false) ∧ PROSTRATIONS = 3 ∧ PROSTRATIONS < MODES ∧
    (counter[PROSTRATIONS]?).map (fun c => c.title) = some "• Prostrations •" := by
  decide

/-- C5: with the default power configuration the display dims after 20 s of
inactivity and the device sleeps after 40 s of inactivity in total.  The header
gives `dim_time` = 20000 ms and `dim_time + sleep_time` = 40000 ms (also in
`unsigned long` arithmetic), `pwr_last_time` = 0, power saving on and not
disabled.  Polled at any clock values up to `now` with no activity since
`last`, the Power Manager started `Active` is `Active` while the idle time
`now - last` is below 20000, `Dimmed` from 20000 up to 39999 and `Sleeping`
from 40000 on; with the disable flag held, or power saving off, it stays
`Active`. -/
theorem C5_default_power_timeouts (last : Nat) (ts : List Nat) (now : Nat)
    (hmono : ∀ t ∈ ts, t ≤ now) :
    dim_time = 20000 ∧ dim_time + sleep_time = 40000 ∧
    (dim_time + sleep_time) % (ULONG_MAX + 1) = 40000 ∧
    pwr_last_time = 0 ∧ power_save = true ∧ power_save_disable = false ∧
    power_polls power_save power_save_disable dim_time sleep_time last
        PowerState.Active (ts ++ [now])
      = (if 40000 ≤ now - last then PowerState.Sleeping
         else if 20000 ≤ now - last then PowerState.Dimmed
         else PowerState.Active) ∧
    power_polls power_save true dim_time sleep_time last PowerState.Active (ts ++ [now])
      = PowerState.Active ∧
    power_polls false power_save_disable dim_time sleep_time last PowerState.Active
        (ts ++ [now])
      = PowerState.Active := by
  refine ⟨by decide, by decide, by decide, by decide, by decide, by decide, ?_, ?_, ?_⟩
  · rw [power_polls_snoc]
    simp only [power_tick, power_save, power_save_disable, dim_time, sleep_time,
      Bool.not_false, Bool.and_self, if_true]
    by_cases h4 : 40000 ≤ now - last
    · rw [if_pos (by omega), if_pos h4]
    · by_cases h2 : 20000 ≤ now - last
      · rw [if_neg (by omega), if_pos h2, if_neg h4, if_pos h2]
      · have hact := power_polls_stay_active true false 20000 20000 last ts
          (fun t ht => by have := hmono t ht; omega)
        rw [if_neg (by omega), if_neg h2, if_neg h4, if_neg h2]
        exact hact
  · have hfix : ∀ (s : PowerState) (t : Nat),
        power_tick power_save true dim_time sleep_time last s t = s := by
      intro s t; simp [power_tick]
    have : ∀ (l : List Nat) (s : PowerState),
        power_polls power_save true dim_time sleep_time last s l = s := by
      intro l
      induction l with
      | nil => intro s; rfl
      | cons t l ih => intro s; simp only [power_polls, List.foldl_cons, hfix] at ih ⊢; exact ih s
    exact this _ _
  · have hfix : ∀ (s : PowerState) (t : Nat),
        power_tick false power_save_disable dim_time sleep_time last s t = s := by
      intro s t; simp [power_tick]
    have : ∀ (l : List Nat) (s : PowerState),
        power_polls false power_save_disable dim_time sleep_time last s l = s := by
      intro l
      induction l with
      | nil => intro s; rfl
      | cons t l ih => intro s; simp only [power_polls, List.foldl_cons, hfix] at ih ⊢; exact ih s
    exact this _ _

/-- Witness of C5: from startup (`pwr_last_time` = 0) the device is polled at
5 s, 20 s and 39.999 s and then at 40 s, where it is `Sleeping`; polled last at
20 s it is `Dimmed`. -/
theorem C5_default_power_timeouts_witness :
    (∀ t ∈ [5000, 20000, 39999], t ≤ 40000) ∧
    power_polls power_save power_save_disable dim_time sleep_time pwr_last_time
        PowerState.Active [5000, 20000, 39999, 40000] = PowerState.Sleeping ∧
    power_polls power_save power_save_disable dim_time sleep_time pwr_last_time
        PowerState.Active [5000, 19999, 20000] = PowerState.Dimmed ∧
    power_polls power_save power_save_disable dim_time sleep_time pwr_last_time
        PowerState.Active [5000, 19999] = PowerState.Active ∧
    power_polls power_save power_save_disable dim_time sleep_time 0
        PowerState.Active ([5000, 20000, 39999] ++ [40000])
      = (if 40000 ≤ 40000 - 0 then PowerState.Sleeping
         else if 20000 ≤ 40000 - 0 then PowerState.Dimmed
         else PowerState.Active) :=
  ⟨by decide, by decide, by decide, by decide,
    (C5_default_power_timeouts 0 [5000, 20000, 39999] 40000 (by decide)).2.2.2.2.2.2.1⟩

/-- C6: the deep-sleep wake mask is 2 to the power `BUTTON_INC_PIN`, that is 0x4,
so the only bit set in it is the one of the increment button pin, and the bits
of the decrement, prostration, next and previous button pins are clear. -/
theorem C6_wake_mask_single_pin :
    BUTTON_PIN_BITMASK = 2 ^ BUTTON_INC_PIN ∧ BUTTON_PIN_BITMASK = 0x4 ∧
    (∀ i, Nat.testBit BUTTON_PIN_BITMASK i = true ↔ i = BUTTON_INC_PIN) ∧
    Nat.testBit BUTTON_PIN_BITMASK BUTTON_DEC_PIN = false ∧
    Nat.testBit BUTTON_PIN_BITMASK BUTTON_PRS_PIN = false ∧
    Nat.testBit BUTTON_PIN_BITMASK BUTTON_NXT_PIN = false ∧
    Nat.testBit BUTTON_PIN_BITMASK BUTTON_PRV_PIN = false := by
  refine ⟨by decide, by decide, ?_, by decide, by decide, by decide, by decide⟩
  intro i
  have h : BUTTON_PIN_BITMASK = 2 ^ BUTTON_INC_PIN := by decide
  rw [h, Nat.testBit_two_pow]
  simp [eq_comm]

/-- C7: the default detector configuration is a 700 mm proximity threshold, a
300 ms low dwell and a 500 ms stand-up dwell, all strictly positive, and the
detector starts paused, not low, with the last prostration finished. -/
theorem C7_prostration_defaults :
    prst_distance = 700 ∧ prst_low_time = 300 ∧ prst_sup_time = 500 ∧
    0 < prst_distance ∧ 0 < prst_low_time ∧ 0 < prst_sup_time ∧
    isStart = false ∧ isLow = false ∧ isEnd = true := by
  decide

/-- C8: the startup brightness is `BRIGHTNESS_MAX`, which is 2 to the power
`pwmResolution` minus 1 (255 for 8 bits) and fits a `byte`, and the dimmed
brightness lies between `BRIGHTNESS_MIN` and below `BRIGHTNESS_MAX`
(1 <= 24 < 255). -/
theorem C8_brightness_levels_ordered :
    brightness = BRIGHTNESS_MAX ∧ brightness ≤ BYTE_MAX ∧ 0 ≤ pwmResolution ∧
    BRIGHTNESS_MAX = 2 ^ pwmResolution.toNat - 1 ∧ BRIGHTNESS_MAX = 255 ∧
    BRIGHTNESS_MIN ≤ dim_brightness ∧ dim_brightness < BRIGHTNESS_MAX ∧
    BRIGHTNESS_MIN = 1 ∧ dim_brightness = 24 := by
  decide

/-- C9: every slot of the default counter table has value 0, a goal between 1
and 999999 (hence value at most the goal) and a non-empty title; the 14 titles
are pairwise distinct; slots 0, 1, 2 have goals 7, 21, 108 and the title
"• Mode g •" for their goal g; and every slot i from 4 to 13 is titled
"Tally counter k" with k = i - 3 and has goal 999999. -/
theorem C9_default_table_well_formed :
    (∀ i, i < MODES → ∃ c, counter[i]? = some c ∧ c.value = 0 ∧ 1 ≤ c.max_value ∧
      c.max_value ≤ 999999 ∧ c.value ≤ c.max_value ∧ c.title ≠ "") ∧
    (counter.map (fun c => c.title)).Nodup ∧
    (counter.map (fun c => c.max_value)).take 3 = [7, 21, 108] ∧
    (∀ i, i < 3 → ∃ c, counter[i]? = some c ∧
      c.title = "• Mode " ++ toString c.max_value ++ " •") ∧
    (∀ i, 4 ≤ i → i ≤ 13 → ∃ c, counter[i]? = some c ∧
      c.title = "Tally counter " ++ toString (i - 3) ∧ c.max_value = 999999) := by
  refine ⟨by decide, by decide, by decide, by decide, by decide⟩

/-- C10: the bead table has exactly 108 coordinate pairs, as many as the goal
of slot 2 (mode 108), the pairs are pairwise distinct, and every pair lies on
the screen: x below `TFT_W` = 240 and y below `TFT_H` = 135. -/
theorem C10_bead_table_on_screen :
    beadXY.length = 108 ∧
    (counter[2]?).map (fun c => c.max_value) = some beadXY.length ∧
    beadXY.Nodup ∧
    (∀ p ∈ beadXY, p.1 < TFT_W ∧ p.2 < TFT_H) ∧ TFT_W = 240 ∧ TFT_H = 135 := by
  refine ⟨by decide, by decide, by decide, by decide, by decide, by decide⟩

end DharmaCounter
